import Mathlib

/-!
Verification development for the `research-explorer` repository.

The repository is a Node/Express service that aggregates publication
metadata about a named person from several providers (Semantic Scholar,
Crossref, OpenAlex), filters each raw publication by an author-name
similarity predicate, merges the lists into a deduplicated canonical set
and returns it together with summary metrics and, in one server variant,
a continuation token for resuming pagination.

The repository contains several near-duplicate server variants.  We embed
the three that the specification's claims cite:
  * `Part003` — the multi-provider serverless variant
    (`src/unnamed/part_003`);
  * `Part004` — the OpenAlex-only serverless variant with a wall-clock
    budget, a soft cap and continuation tokens (`src/unnamed/part_004`);
  * `ServerJs` — the named `src/research-explorer/server.js` file
    (its effective top-level `namesSimilar` / `includesAff`).

JavaScript strings are modelled as Lean `String`s (lists of characters);
machine details that cannot matter to the claims (UTF-16 code units,
Unicode-aware `toLowerCase` beyond ASCII, the full Unicode `\s` class)
are modelled on the ASCII fragment, identically on the implementation
side and the specification side of every theorem.
-/

/-- Model of the JavaScript `\s` character class on the ASCII fragment:
space, tab, line feed, carriage return, vertical tab and form feed. -/
def isWs (c : Char) : Bool :=
  c = ' ' ∨ c = '\t' ∨ c = '\n' ∨ c = '\r' ∨ c = Char.ofNat 11 ∨ c = Char.ofNat 12

/-- Model of the character class `[\s.]` used by `split(/[\s.]+/)`. -/
def isWsDot (c : Char) : Bool := isWs c || c = '.'

/-- Model of `String.prototype.toLowerCase` (ASCII case mapping). -/
def jsLowerL (l : List Char) : List Char := l.map Char.toLower

/-- `toLowerCase` on `String`s. -/
def jsLowerStr (s : String) : String := String.mk (jsLowerL s.data)

/-- Boolean list-prefix test (model of `String.prototype.startsWith`). -/
def isPrefixL : List Char → List Char → Bool
  | [], _ => true
  | _ :: _, [] => false
  | a :: as, b :: bs => a = b && isPrefixL as bs

/-- Boolean contiguous-substring test (model of `String.prototype.includes`:
`isInfixL p l` holds when `p` occurs contiguously inside `l`). -/
def isInfixL (p : List Char) : List Char → Bool
  | [] => isPrefixL p []
  | l@(_ :: t) => isPrefixL p l || isInfixL p t

/-- `includes` on `String`s: `isInfixStr p s` models `s.includes(p)`. -/
def isInfixStr (p s : String) : Bool := isInfixL p.data s.data

/-- Boolean list-suffix test (model of `String.prototype.endsWith`). -/
def isSuffixL (p l : List Char) : Bool := isPrefixL p.reverse l.reverse

/-- Model of `str.split(regex).filter(Boolean)` where the regex matches the
single characters selected by `sep`: the maximal chunks of characters not
matching `sep`, with empty chunks removed. -/
def jsSplitTokens (sep : Char → Bool) (l : List Char) : List (List Char) :=
  (List.splitOnP sep l).filter (· ≠ [])

/-- Model of `s.toLowerCase().trim().replace(/\s+/g, ' ')`: lowercase, then
drop leading/trailing whitespace and collapse every inner whitespace run to
one space.  The result is exactly the whitespace-delimited words joined by
single spaces. -/
def jsNormName (s : String) : List Char :=
  List.intercalate [' '] (jsSplitTokens isWs (jsLowerL s.data))

/-- Model of `String.prototype.trim` (ASCII whitespace). -/
def jsTrimL (l : List Char) : List Char :=
  ((l.dropWhile isWs).reverse.dropWhile isWs).reverse

/-- `trim` on `String`s. -/
def jsTrimStr (s : String) : String := String.mk (jsTrimL s.data)

/-- Model of the JavaScript falsy coercion `n || null` on an optional
integer (`0` is falsy, so it collapses to `null`). -/
def jsIntOrNull : Option Int → Option Int
  | none => none
  | some n => if n = 0 then none else some n

/-- Model of the template fragment `${y || ''}` on an optional year. -/
def yearStr : Option Int → String
  | none => ""
  | some n => if n = 0 then "" else toString n

/-- Model of `s || null` on a string (the empty string is falsy). -/
def jsStrOrNone (s : String) : Option String :=
  if s = "" then none else some s

/-- First element of maximal score, scanning left to right and replacing the
current best only on a strictly greater score.  This models both the explicit
`if (s > bestScore) { bestScore = s; best = c; }` loops (initial score `-1`,
all scores non-negative) and the stable `sort((a,b) => b.score - a.score)[0]`
pattern of `part_003` (V8's sort is stable, so the head is the first
maximum). -/
def firstArgmax (score : α → Int) (l : List α) : Option α :=
  l.foldl (fun acc c =>
    match acc with
    | none => some c
    | some b => if score c > score b then some c else acc) none

namespace Part003

/-- `namesSimilar` from `src/unnamed/part_003` lines 26–44 (the identical
function also appears at the top level of `src/unnamed/part_004` lines
26–44).  Empty raw inputs are rejected first; then the normalized strings
are compared for equality and mutual containment; finally the
whitespace/period tokens must agree on the last token and either agree on
the first token or relate by a single-letter-initial prefix. -/
def namesSimilar (a b : String) : Bool :=
  if a = "" ∨ b = "" then false
  else
    let A := jsNormName a
    let B := jsNormName b
    if A = B then true
    else if isInfixL B A || isInfixL A B then true
    else
      let ap := jsSplitTokens isWsDot A
      let bp := jsSplitTokens isWsDot B
      if ap = [] ∨ bp = [] then false
      else if ap.getLastD [] ≠ bp.getLastD [] then false
      else
        let aFirst := ap.headD []
        let bFirst := bp.headD []
        if aFirst ≠ [] ∧ bFirst ≠ [] then
          if aFirst = bFirst then true
          else if (aFirst.length = 1 && isPrefixL aFirst bFirst)
                  || (bFirst.length = 1 && isPrefixL bFirst aFirst) then true
          else false
        else false

/-- `includesAff` from `src/unnamed/part_003` lines 46–53 (identical at the
top level of `src/unnamed/part_004` lines 46–53): each non-empty lowercased
hint must occur inside the lowercased text. -/
def includesAff (text aff dept : String) : Bool :=
  if jsLowerStr aff ≠ "" ∧ ¬(isInfixStr (jsLowerStr aff) (jsLowerStr text) = true) then false
  else if jsLowerStr dept ≠ "" ∧ ¬(isInfixStr (jsLowerStr dept) (jsLowerStr text) = true) then false
  else true

end Part003

namespace Part004

/-- The route-local `namesSimilar` of `src/unnamed/part_004` lines 208–220
(inside `/api/authorPublications`).  It differs from the top-level variant:
the empty test happens after normalization, the token split is on
whitespace only (`/\s+/`, no periods) without a `filter(Boolean)`, and
there is no explicit empty-token-list guard. -/
def namesSimilar (a b : String) : Bool :=
  let A := jsNormName a
  let B := jsNormName b
  if A = [] ∨ B = [] then false
  else if A = B || isInfixL B A || isInfixL A B then true
  else
    let ap := List.splitOnP isWs A
    let bp := List.splitOnP isWs B
    if ap.getLastD [] ≠ bp.getLastD [] then false
    else if ap.headD [] = bp.headD [] then true
    else if ((ap.headD []).length = 1 && isPrefixL (ap.headD []) (bp.headD []))
            || ((bp.headD []).length = 1 && isPrefixL (bp.headD []) (ap.headD [])) then true
    else false

end Part004

namespace ServerJs

/-- The effective top-level `namesSimilar` of
`src/research-explorer/server.js` lines 41–80.  After the equality and
containment checks it requires equal last tokens, then accepts when either
first token is a single letter (regardless of the other first token), or
when the two first tokens merely start with the same character. -/
def namesSimilar (a b : String) : Bool :=
  if a = "" ∨ b = "" then false
  else
    let A := jsNormName a
    let B := jsNormName b
    if A = B then true
    else if isInfixL B A || isInfixL A B then true
    else
      let ap := jsSplitTokens isWsDot A
      let bp := jsSplitTokens isWsDot B
      if ap ≠ [] ∧ bp ≠ [] then
        if ap.getLastD [] ≠ bp.getLastD [] then false
        else if (ap.headD []).length = 1 ∨ (bp.headD []).length = 1 then true
        else if (ap.headD []).headD ' ' = (bp.headD []).headD ' ' then true
        else false
      else false

/-- The effective top-level `includesAff` of
`src/research-explorer/server.js` lines 32–38.  It is variadic
(`includesAff(affiliation, ...searchTerms)`); at its three-argument call
sites the search terms are the affiliation and department hints, modelled
here as a list.  An empty text is rejected outright, and the non-empty
terms are combined with `some` (OR), not `every`. -/
def includesAff (text : String) (searchTerms : List String) : Bool :=
  if text = "" then false
  else (searchTerms.filter (· ≠ "")).any
    (fun t => isInfixStr (jsLowerStr t) (jsLowerStr text))

end ServerJs

-- quick sanity examples (claims' anchor values)
example : Part003.namesSimilar "A. Khandare" "Anand Khandare" = true := by decide
example : Part003.namesSimilar "Anand Khandare" "Anand Patel" = false := by decide
example : Part003.namesSimilar "" "Anand" = false := by decide
example : ServerJs.namesSimilar "Ankit Khandare" "Anand Khandare" = true := by decide
example : Part003.namesSimilar "Ankit Khandare" "Anand Khandare" = false := by decide
example : Part004.namesSimilar "A Khandare" "Anand Khandare" = true := by decide
example : Part004.namesSimilar "A. Khandare" "Anand Khandare" = false := by decide
example : Part003.includesAff "Thakur College, AI and DS" "thakur college" "ai and ds" = true := by decide
example : ServerJs.includesAff "anything" ["", ""] = false := by decide

/-!
## Data model: raw publications and the merge/dedup engine

`RawPublication` is the common record shape every adapter produces
(`title, year, venue, url, doi, authors, type, origin, abstract`).
-/

structure RawPublication where
  title : String
  year : Option Int
  venue : String
  url : String
  doi : String
  authors : List String
  type : String
  origin : String
  abstract : String
  deriving DecidableEq, Repr

namespace Part004

/-- The dedup key of `src/unnamed/part_004` lines 313–316:
`doi:<lowercased doi>` when the DOI is non-empty, else
`url:<lowercased url>` when the URL is non-empty, else
`ty:<lowercased title>::<year or empty>`. -/
def dedupKey (p : RawPublication) : String :=
  if p.doi ≠ "" then "doi:" ++ jsLowerStr p.doi
  else if p.url ≠ "" then "url:" ++ jsLowerStr p.url
  else "ty:" ++ jsLowerStr p.title ++ "::" ++ yearStr p.year

end Part004

namespace Part003

/-- The dedup key of `src/unnamed/part_003` line 346:
`<lowercased url>` when the URL is non-empty, else
`<lowercased title>::<year or empty>`.  Note that it never looks at the
DOI. -/
def dedupKey (p : RawPublication) : String :=
  if p.url ≠ "" then jsLowerStr p.url
  else jsLowerStr p.title ++ "::" ++ yearStr p.year

end Part003

/-- Keep the first record for each key, in input order, threading the set of
seen keys.  This is the common shape of both dedup implementations:
`part_004` inserts into a `Map` keyed by `dedupKey` only when the key is
absent and then takes `Array.from(byKey.values())` (insertion order), and
`part_003` filters with a `seen` `Set`. -/
def keepFirstBy (key : α → String) : List α → List String → List α
  | [], _ => []
  | p :: ps, seen =>
    if key p ∈ seen then keepFirstBy key ps seen
    else p :: keepFirstBy key ps (key p :: seen)

/-- The dedup stage of `src/unnamed/part_004` lines 311–319 (`byKey`). -/
def dedupeByKey (pubs : List RawPublication) : List RawPublication :=
  keepFirstBy Part004.dedupKey pubs []

/-- The merge & dedupe stage of `src/unnamed/part_003` lines 342–348
(applied there to `[...publicationsSS, ...publicationsCR, ...publicationsOA]`). -/
def mergeDedupe (pubs : List RawPublication) : List RawPublication :=
  keepFirstBy Part003.dedupKey pubs []

/-!
### Generic facts about `keepFirstBy`
-/

theorem keepFirstBy_key_not_seen {key : α → String} {l : List α} {seen : List String}
    {r : α} (hr : r ∈ keepFirstBy key l seen) : key r ∉ seen := by
  induction l generalizing seen with
  | nil => simp [keepFirstBy] at hr
  | cons p ps ih =>
    by_cases h : key p ∈ seen
    · exact ih (by simpa [keepFirstBy, h] using hr)
    · rcases (by simpa [keepFirstBy, h] using hr : r = p ∨ r ∈ keepFirstBy key ps (key p :: seen)) with h1 | h1
      · subst h1; exact h
      · intro hmem
        exact ih h1 (List.mem_cons_of_mem _ hmem)

theorem keepFirstBy_keys_nodup (key : α → String) (l : List α) (seen : List String) :
    ((keepFirstBy key l seen).map key).Nodup := by
  induction l generalizing seen with
  | nil => simp [keepFirstBy]
  | cons p ps ih =>
    by_cases h : key p ∈ seen
    · simpa [keepFirstBy, h] using ih seen
    · rw [keepFirstBy, if_neg h]
      simp only [List.map_cons, List.nodup_cons]
      refine ⟨?_, ih _⟩
      intro hk
      rcases List.mem_map.mp hk with ⟨r, hr, hkr⟩
      exact keepFirstBy_key_not_seen hr (by simp [hkr])

theorem keepFirstBy_exists_key {key : α → String} {p : α} :
    ∀ (l : List α) (seen : List String), p ∈ l → key p ∉ seen →
    ∃ r ∈ keepFirstBy key l seen, key r = key p := by
  intro l
  induction l with
  | nil => intro seen hp _; simp at hp
  | cons q qs ih =>
    intro seen hp hseen
    by_cases hq : key q ∈ seen
    · rcases List.mem_cons.mp hp with hp1 | hp1
      · subst hp1; exact absurd hq hseen
      · rcases ih seen hp1 hseen with ⟨r, hr, hkey⟩
        exact ⟨r, by simp [keepFirstBy, hq, hr], hkey⟩
    · by_cases hpq : key p = key q
      · exact ⟨q, by simp [keepFirstBy, hq], hpq.symm⟩
      · rcases List.mem_cons.mp hp with hp1 | hp1
        · subst hp1; simp at hpq
        · rcases ih (key q :: seen) hp1 (by simp [hseen, hpq]) with ⟨r, hr, hkey⟩
          exact ⟨r, by simp [keepFirstBy, hq, hr], hkey⟩

theorem countP_key_le_one {key : α → String} {L : List α}
    (h : (L.map key).Nodup) (k : String) :
    L.countP (fun r => key r = k) ≤ 1 := by
  induction L with
  | nil => simp
  | cons a as ih =>
    simp only [List.map_cons, List.nodup_cons] at h
    rw [List.countP_cons]
    by_cases hk : key a = k
    · have hz : as.countP (fun r => key r = k) = 0 := by
        rw [List.countP_eq_zero]
        intro b hb hbk
        simp only [decide_eq_true_eq] at hbk
        exact h.1 (List.mem_map.mpr ⟨b, hb, hbk.trans hk.symm⟩)
      simp [hz, hk]
    · simpa [hk] using ih h.2

theorem keepFirstBy_countP_eq_one {key : α → String} {l : List α} {p : α}
    (hp : p ∈ l) (seen : List String) (hseen : key p ∉ seen) :
    (keepFirstBy key l seen).countP (fun r => key r = key p) = 1 := by
  rcases keepFirstBy_exists_key l seen hp hseen with ⟨r, hr, hkey⟩
  have hle := countP_key_le_one (keepFirstBy_keys_nodup key l seen) (key p)
  have hge : 0 < (keepFirstBy key l seen).countP (fun r => key r = key p) :=
    List.countP_pos_iff.mpr ⟨r, hr, by simp [hkey]⟩
  omega

theorem keepFirstBy_of_keys_nodup {key : α → String} :
    ∀ (l : List α) (seen : List String), (l.map key).Nodup →
    (∀ p ∈ l, key p ∉ seen) → keepFirstBy key l seen = l := by
  intro l
  induction l with
  | nil => intro seen _ _; rfl
  | cons p ps ih =>
    intro seen hnd hfresh
    simp only [List.map_cons, List.nodup_cons] at hnd
    rw [keepFirstBy, if_neg (hfresh p (by simp))]
    congr 1
    refine ih _ hnd.2 ?_
    intro q hq
    simp only [List.mem_cons]
    rintro (h1 | h1)
    · exact hnd.1 (List.mem_map.mpr ⟨q, hq, h1⟩)
    · exact hfresh q (List.mem_cons_of_mem _ hq) h1

theorem keepFirstBy_idem (key : α → String) (l : List α) :
    keepFirstBy key (keepFirstBy key l []) [] = keepFirstBy key l [] :=
  keepFirstBy_of_keys_nodup _ _ (keepFirstBy_keys_nodup key l [])
    (by intro p _; simp)

/-- Specification-side list of keys in first-seen order: keep the first
occurrence of every key ("output order = first-seen order of keys"). -/
def firstKeys : List String → List String
  | [] => []
  | k :: ks => k :: (firstKeys ks).filter (· ≠ k)

/-- Specification-side merge, written from the spec's words: take the keys
in first-seen order, and for each key the first record of the input list
carrying that key ("first record observed for a key becomes that key's
canonical record as-is"). -/
def specFirstWinsMerge (key : α → String) (l : List α) : List α :=
  (firstKeys (l.map key)).filterMap (fun k => l.find? (fun r => key r = k))

theorem keepFirstBy_eq_firstKeys_find {key : α → String} :
    ∀ (l : List α) (seen : List String),
    keepFirstBy key l seen =
      ((firstKeys (l.map key)).filter (fun k => k ∉ seen)).filterMap
        (fun k => l.find? (fun r => key r = k)) := by
  intro l
  induction l with
  | nil => intro seen; rfl
  | cons p ps ih =>
    intro seen
    by_cases h : key p ∈ seen
    · rw [keepFirstBy, if_pos h, ih seen]
      simp only [List.map_cons, firstKeys, List.filter_cons]
      rw [if_neg (by simp [h])]
      rw [List.filter_filter]
      have hfilter :
          (firstKeys (ps.map key)).filter (fun k => decide (k ∉ seen) && decide (k ≠ key p)) =
          (firstKeys (ps.map key)).filter (fun k => k ∉ seen) := by
        refine List.filter_congr ?_
        intro k _
        by_cases hk : k ∈ seen
        · simp [hk]
        · simp [hk]
          intro hkp
          exact absurd (hkp ▸ h) hk
      rw [hfilter]
      refine List.filterMap_congr ?_
      intro k hk
      have hkseen : k ∉ seen := by simpa using (List.of_mem_filter hk)
      have hkp : ¬ (key p = k) := fun hcontra => hkseen (hcontra ▸ h)
      rw [List.find?_cons_of_neg _ (by simpa using hkp)]
    · rw [keepFirstBy, if_neg h, ih (key p :: seen)]
      simp only [List.map_cons, firstKeys, List.filter_cons]
      rw [if_pos (by simp [h])]
      rw [List.filter_filter]
      have hfilter :
          (firstKeys (ps.map key)).filter (fun k => decide (k ∉ seen) && decide (k ≠ key p)) =
          (firstKeys (ps.map key)).filter (fun k => k ∉ key p :: seen) := by
        refine List.filter_congr ?_
        intro k _
        by_cases hk : k ∈ seen <;> by_cases hkp : k = key p <;> simp [hk, hkp]
      rw [hfilter]
      rw [List.filterMap_cons]
      rw [List.find?_cons_of_pos _ (by simp)]
      congr 1
      refine List.filterMap_congr ?_
      intro k hk
      have hkmem : k ∉ key p :: seen := by simpa using (List.of_mem_filter hk)
      have hkp : ¬ (key p = k) := by
        intro hcontra
        exact hkmem (by simp [hcontra])
      rw [List.find?_cons_of_neg _ (by simpa using hkp)]

theorem keepFirstBy_eq_specFirstWinsMerge (key : α → String) (l : List α) :
    keepFirstBy key l [] = specFirstWinsMerge key l := by
  rw [keepFirstBy_eq_firstKeys_find l []]
  unfold specFirstWinsMerge
  congr 1
  refine List.filter_eq_self.mpr ?_
  intro k _
  simp

/-!
## Specification-side predicates for the name/affiliation matcher
-/

theorem jsSplitTokens_ne_nil {sep : Char → Bool} {l : List Char} {t : List Char}
    (ht : t ∈ jsSplitTokens sep l) : t ≠ [] := by
  have := List.of_mem_filter ht
  simpa using this

theorem jsSplitTokens_headD_ne_nil {sep : Char → Bool} {l : List Char}
    (h : jsSplitTokens sep l ≠ []) : (jsSplitTokens sep l).headD [] ≠ [] := by
  rcases hx : jsSplitTokens sep l with _ | ⟨t, ts⟩
  · exact absurd hx h
  · simp only [List.headD_cons]
    exact jsSplitTokens_ne_nil (t := t) (by rw [hx]; simp)

/-- "one first token is a single letter that is a prefix of the other first
token", in one direction. -/
def initialMatch (x y : List Char) : Prop :=
  x.length = 1 ∧ isPrefixL x y = true

/-- The claim's description of `namesSimilar`, written from the spec's
words: no match on empty input; otherwise, after lowercasing and collapsing
whitespace, the strings are equal, or one contains the other, or (splitting
both on whitespace/periods) the last tokens are equal and either the first
tokens are equal or one first token is a single-letter prefix of the
other. -/
def NamesSimilarSpec (a b : String) : Prop :=
  a ≠ "" ∧ b ≠ "" ∧
  (jsNormName a = jsNormName b
   ∨ isInfixL (jsNormName b) (jsNormName a) = true
   ∨ isInfixL (jsNormName a) (jsNormName b) = true
   ∨ (jsSplitTokens isWsDot (jsNormName a) ≠ [] ∧
      jsSplitTokens isWsDot (jsNormName b) ≠ [] ∧
      (jsSplitTokens isWsDot (jsNormName a)).getLastD []
        = (jsSplitTokens isWsDot (jsNormName b)).getLastD [] ∧
      ((jsSplitTokens isWsDot (jsNormName a)).headD []
         = (jsSplitTokens isWsDot (jsNormName b)).headD []
       ∨ initialMatch ((jsSplitTokens isWsDot (jsNormName a)).headD [])
           ((jsSplitTokens isWsDot (jsNormName b)).headD [])
       ∨ initialMatch ((jsSplitTokens isWsDot (jsNormName b)).headD [])
           ((jsSplitTokens isWsDot (jsNormName a)).headD []))))

instance (a b : String) : Decidable (NamesSimilarSpec a b) := by
  unfold NamesSimilarSpec initialMatch
  infer_instance

theorem nsChain_iff (A B : List Char) :
    (if A = B then true
     else if isInfixL B A || isInfixL A B then true
     else if jsSplitTokens isWsDot A = [] ∨ jsSplitTokens isWsDot B = [] then false
     else if (jsSplitTokens isWsDot A).getLastD [] ≠ (jsSplitTokens isWsDot B).getLastD []
       then false
     else if (jsSplitTokens isWsDot A).headD [] ≠ [] ∧ (jsSplitTokens isWsDot B).headD [] ≠ []
       then
         if (jsSplitTokens isWsDot A).headD [] = (jsSplitTokens isWsDot B).headD [] then true
         else if ((jsSplitTokens isWsDot A).headD []).length = 1
                   && isPrefixL ((jsSplitTokens isWsDot A).headD [])
                        ((jsSplitTokens isWsDot B).headD [])
                 || ((jsSplitTokens isWsDot B).headD []).length = 1
                   && isPrefixL ((jsSplitTokens isWsDot B).headD [])
                        ((jsSplitTokens isWsDot A).headD []) then true
         else false
     else false) = true
    ↔ (A = B
       ∨ isInfixL B A = true
       ∨ isInfixL A B = true
       ∨ (jsSplitTokens isWsDot A ≠ [] ∧
          jsSplitTokens isWsDot B ≠ [] ∧
          (jsSplitTokens isWsDot A).getLastD [] = (jsSplitTokens isWsDot B).getLastD [] ∧
          ((jsSplitTokens isWsDot A).headD [] = (jsSplitTokens isWsDot B).headD []
           ∨ initialMatch ((jsSplitTokens isWsDot A).headD [])
               ((jsSplitTokens isWsDot B).headD [])
           ∨ initialMatch ((jsSplitTokens isWsDot B).headD [])
               ((jsSplitTokens isWsDot A).headD [])))) := by
  by_cases h1 : A = B
  · simp [h1]
  · rw [if_neg h1]
    by_cases h2a : isInfixL B A = true
    · simp [h2a]
    · by_cases h2b : isInfixL A B = true
      · simp [h2a, h2b]
      · rw [if_neg (by simp [h2a, h2b])]
        by_cases h3 : jsSplitTokens isWsDot A = [] ∨ jsSplitTokens isWsDot B = []
        · rw [if_pos h3]
          simp only [Bool.false_eq_true, false_iff]
          rintro (h | h | h | ⟨hA, hB, -⟩)
          · exact h1 h
          · exact h2a h
          · exact h2b h
          · rcases h3 with h3 | h3
            · exact hA h3
            · exact hB h3
        · push_neg at h3
          rw [if_neg (by tauto)]
          by_cases h4 : (jsSplitTokens isWsDot A).getLastD [] = (jsSplitTokens isWsDot B).getLastD []
          · rw [if_neg (by simpa using h4)]
            have haF := jsSplitTokens_headD_ne_nil h3.1
            have hbF := jsSplitTokens_headD_ne_nil h3.2
            rw [if_pos ⟨haF, hbF⟩]
            by_cases h5 : (jsSplitTokens isWsDot A).headD [] = (jsSplitTokens isWsDot B).headD []
            · rw [if_pos h5]
              simp only [true_iff]
              exact Or.inr (Or.inr (Or.inr ⟨h3.1, h3.2, h4, Or.inl h5⟩))
            · rw [if_neg h5]
              by_cases h6 : (((jsSplitTokens isWsDot A).headD []).length = 1
                    && isPrefixL ((jsSplitTokens isWsDot A).headD [])
                         ((jsSplitTokens isWsDot B).headD [])
                  || ((jsSplitTokens isWsDot B).headD []).length = 1
                    && isPrefixL ((jsSplitTokens isWsDot B).headD [])
                         ((jsSplitTokens isWsDot A).headD [])) = true
              · rw [if_pos h6]
                simp only [true_iff]
                refine Or.inr (Or.inr (Or.inr ⟨h3.1, h3.2, h4, Or.inr ?_⟩))
                rcases (by simpa using h6 :
                    (((jsSplitTokens isWsDot A).headD []).length = 1 ∧
                      isPrefixL ((jsSplitTokens isWsDot A).headD [])
                        ((jsSplitTokens isWsDot B).headD []) = true)
                    ∨ (((jsSplitTokens isWsDot B).headD []).length = 1 ∧
                      isPrefixL ((jsSplitTokens isWsDot B).headD [])
                        ((jsSplitTokens isWsDot A).headD []) = true))
                  with ⟨hl, hpre⟩ | ⟨hl, hpre⟩
                · exact Or.inl ⟨by simpa using hl, by simpa using hpre⟩
                · exact Or.inr ⟨by simpa using hl, by simpa using hpre⟩
              · rw [if_neg h6]
                simp only [Bool.false_eq_true, false_iff]
                rintro (h | h | h | ⟨-, -, -, h7⟩)
                · exact h1 h
                · exact h2a h
                · exact h2b h
                · rcases h7 with h7 | ⟨hl, hpre⟩ | ⟨hl, hpre⟩
                  · exact h5 h7
                  · exact h6 (by
                      simp only [Bool.or_eq_true, Bool.and_eq_true, decide_eq_true_eq]
                      exact Or.inl ⟨hl, hpre⟩)
                  · exact h6 (by
                      simp only [Bool.or_eq_true, Bool.and_eq_true, decide_eq_true_eq]
                      exact Or.inr ⟨hl, hpre⟩)
          · rw [if_pos h4]
            simp only [Bool.false_eq_true, false_iff]
            rintro (h | h | h | ⟨-, -, h7, -⟩)
            · exact h1 h
            · exact h2a h
            · exact h2b h
            · exact h4 h7

theorem part003_namesSimilar_iff_spec (a b : String) :
    Part003.namesSimilar a b = true ↔ NamesSimilarSpec a b := by
  by_cases hab : a = "" ∨ b = ""
  · have hfalse : Part003.namesSimilar a b = false := by
      unfold Part003.namesSimilar
      rw [if_pos hab]
    rw [hfalse]
    simp only [Bool.false_eq_true, false_iff]
    rintro ⟨ha, hb, -⟩
    rcases hab with h | h
    · exact ha h
    · exact hb h
  · push_neg at hab
    constructor
    · intro h
      refine ⟨hab.1, hab.2, ?_⟩
      have h' := h
      unfold Part003.namesSimilar at h'
      rw [if_neg (by tauto)] at h'
      exact (nsChain_iff (jsNormName a) (jsNormName b)).mp h'
    · rintro ⟨-, -, h⟩
      unfold Part003.namesSimilar
      rw [if_neg (by tauto)]
      exact (nsChain_iff (jsNormName a) (jsNormName b)).mpr h

theorem NamesSimilarSpec_symm (a b : String) :
    NamesSimilarSpec a b ↔ NamesSimilarSpec b a := by
  have flip : ∀ x y : String, NamesSimilarSpec x y → NamesSimilarSpec y x := by
    rintro x y ⟨hx, hy, h⟩
    refine ⟨hy, hx, ?_⟩
    rcases h with h | h | h | ⟨t1, t2, t3, h4⟩
    · exact Or.inl h.symm
    · exact Or.inr (Or.inr (Or.inl h))
    · exact Or.inr (Or.inl h)
    · refine Or.inr (Or.inr (Or.inr ⟨t2, t1, t3.symm, ?_⟩))
      rcases h4 with h4 | h4 | h4
      · exact Or.inl h4.symm
      · exact Or.inr (Or.inr h4)
      · exact Or.inr (Or.inl h4)
  exact ⟨flip a b, flip b a⟩

theorem part003_namesSimilar_symm (a b : String) :
    Part003.namesSimilar a b = Part003.namesSimilar b a := by
  have h1 := part003_namesSimilar_iff_spec a b
  have h2 := part003_namesSimilar_iff_spec b a
  have h3 := NamesSimilarSpec_symm a b
  cases hx : Part003.namesSimilar a b
  · cases hy : Part003.namesSimilar b a
    · rfl
    · have := h1.mpr (h3.mpr (h2.mp hy))
      rw [hx] at this
      exact absurd this (by simp)
  · exact (h2.mpr (h3.mp (h1.mp hx))).symm

theorem p4Chain_symm (X Y : List Char) :
    (if X = [] ∨ Y = [] then false
     else if X = Y || isInfixL Y X || isInfixL X Y then true
     else if (List.splitOnP isWs X).getLastD [] ≠ (List.splitOnP isWs Y).getLastD [] then false
     else if (List.splitOnP isWs X).headD [] = (List.splitOnP isWs Y).headD [] then true
     else if ((List.splitOnP isWs X).headD []).length = 1
               && isPrefixL ((List.splitOnP isWs X).headD []) ((List.splitOnP isWs Y).headD [])
             || ((List.splitOnP isWs Y).headD []).length = 1
               && isPrefixL ((List.splitOnP isWs Y).headD []) ((List.splitOnP isWs X).headD [])
       then true
     else false)
    = (if Y = [] ∨ X = [] then false
     else if Y = X || isInfixL X Y || isInfixL Y X then true
     else if (List.splitOnP isWs Y).getLastD [] ≠ (List.splitOnP isWs X).getLastD [] then false
     else if (List.splitOnP isWs Y).headD [] = (List.splitOnP isWs X).headD [] then true
     else if ((List.splitOnP isWs Y).headD []).length = 1
               && isPrefixL ((List.splitOnP isWs Y).headD []) ((List.splitOnP isWs X).headD [])
             || ((List.splitOnP isWs X).headD []).length = 1
               && isPrefixL ((List.splitOnP isWs X).headD []) ((List.splitOnP isWs Y).headD [])
       then true
     else false) := by
  by_cases h1 : X = [] ∨ Y = []
  · rw [if_pos h1, if_pos (Or.symm h1)]
  · rw [if_neg h1, if_neg (fun h => h1 (Or.symm h))]
    by_cases h2 : (decide (X = Y) || isInfixL Y X || isInfixL X Y) = true
    · have h2' : (decide (Y = X) || isInfixL X Y || isInfixL Y X) = true := by
        simp only [Bool.or_eq_true, decide_eq_true_eq] at h2 ⊢
        rcases h2 with (h | h) | h
        · exact Or.inl (Or.inl h.symm)
        · exact Or.inr h
        · exact Or.inl (Or.inr h)
      rw [if_pos h2, if_pos h2']
    · have h2' : ¬(decide (Y = X) || isInfixL X Y || isInfixL Y X) = true := by
        intro h
        apply h2
        simp only [Bool.or_eq_true, decide_eq_true_eq] at h ⊢
        rcases h with (h | h) | h
        · exact Or.inl (Or.inl h.symm)
        · exact Or.inr h
        · exact Or.inl (Or.inr h)
      rw [if_neg h2, if_neg h2']
      by_cases h3 : (List.splitOnP isWs X).getLastD [] = (List.splitOnP isWs Y).getLastD []
      · have e1 : ¬((List.splitOnP isWs X).getLastD [] ≠ (List.splitOnP isWs Y).getLastD []) :=
          fun hc => hc h3
        have e2 : ¬((List.splitOnP isWs Y).getLastD [] ≠ (List.splitOnP isWs X).getLastD []) :=
          fun hc => hc h3.symm
        rw [if_neg e1, if_neg e2]
        by_cases h4 : (List.splitOnP isWs X).headD [] = (List.splitOnP isWs Y).headD []
        · rw [if_pos h4, if_pos h4.symm]
        · have e3 : ¬((List.splitOnP isWs Y).headD [] = (List.splitOnP isWs X).headD []) :=
            fun h => h4 h.symm
          rw [if_neg h4, if_neg e3]
          by_cases h5 : (((List.splitOnP isWs X).headD []).length = 1
               && isPrefixL ((List.splitOnP isWs X).headD []) ((List.splitOnP isWs Y).headD [])
             || ((List.splitOnP isWs Y).headD []).length = 1
               && isPrefixL ((List.splitOnP isWs Y).headD []) ((List.splitOnP isWs X).headD [])) = true
          · rw [if_pos h5, if_pos (by rwa [Bool.or_comm] at h5)]
          · rw [if_neg h5, if_neg (fun h => h5 (by rwa [Bool.or_comm] at h))]
      · have e4 : (List.splitOnP isWs Y).getLastD [] ≠ (List.splitOnP isWs X).getLastD [] :=
          fun hc => h3 hc.symm
        rw [if_pos h3, if_pos e4]

theorem part004_namesSimilar_symm (a b : String) :
    Part004.namesSimilar a b = Part004.namesSimilar b a :=
  p4Chain_symm (jsNormName a) (jsNormName b)

theorem jsLowerStr_eq_empty_iff (s : String) : jsLowerStr s = "" ↔ s = "" := by
  constructor
  · intro h
    cases s with
    | mk d =>
      cases d with
      | nil => rfl
      | cons c cs => exact absurd (congrArg String.data h) (by simp [jsLowerStr, jsLowerL])
  · intro h
    rw [h]
    rfl

/-- The claim's description of the affiliation matcher, written from the
spec's words: every non-empty hint is contained, case-insensitively, in the
text; absent hints are vacuously satisfied. -/
def IncludesAffSpec (text aff dept : String) : Prop :=
  (aff ≠ "" → isInfixStr (jsLowerStr aff) (jsLowerStr text) = true) ∧
  (dept ≠ "" → isInfixStr (jsLowerStr dept) (jsLowerStr text) = true)

instance (text aff dept : String) : Decidable (IncludesAffSpec text aff dept) := by
  unfold IncludesAffSpec
  infer_instance

theorem part003_includesAff_iff_spec (text aff dept : String) :
    Part003.includesAff text aff dept = true ↔ IncludesAffSpec text aff dept := by
  unfold Part003.includesAff IncludesAffSpec
  by_cases h1 : jsLowerStr aff ≠ "" ∧ ¬(isInfixStr (jsLowerStr aff) (jsLowerStr text) = true)
  · rw [if_pos h1]
    simp only [Bool.false_eq_true, false_iff]
    rintro ⟨hs1, -⟩
    exact h1.2 (hs1 (fun he => h1.1 ((jsLowerStr_eq_empty_iff aff).mpr he)))
  · rw [if_neg h1]
    by_cases h2 : jsLowerStr dept ≠ "" ∧ ¬(isInfixStr (jsLowerStr dept) (jsLowerStr text) = true)
    · rw [if_pos h2]
      simp only [Bool.false_eq_true, false_iff]
      rintro ⟨-, hs2⟩
      exact h2.2 (hs2 (fun he => h2.1 ((jsLowerStr_eq_empty_iff dept).mpr he)))
    · rw [if_neg h2]
      push_neg at h1 h2
      refine iff_of_true rfl ⟨?_, ?_⟩
      · intro ha
        exact h1 (fun he => ha ((jsLowerStr_eq_empty_iff aff).mp he))
      · intro hd
        exact h2 (fun he => hd ((jsLowerStr_eq_empty_iff dept).mp he))

/-!
## OpenAlex wire shapes (shared by `part_003`'s OA block and `part_004`)
-/

/-- One authorship entry of an OpenAlex work (`w.authorships[i]`): the
author's display name, ORCID URL and institution display names.  Missing
string fields are modelled as `""`. -/
structure OAAuthorship where
  display_name : String
  orcid : String
  institutions : List String
  deriving DecidableEq, Repr

/-- An OpenAlex work, restricted to the fields the routes read.  Missing
string fields are modelled as `""`. -/
structure OAWork where
  title : String
  publication_year : Option Int
  host_venue : String
  landing_page_url : String
  doi : String
  authorships : List OAAuthorship
  type : String
  deriving DecidableEq, Repr

/-- An OpenAlex author candidate, restricted to the fields the routes
read. -/
structure OAAuthor where
  id : String
  display_name : String
  last_known_institution : String
  orcid : String
  deriving DecidableEq, Repr

/-- `author?.orcid?.replace('https://orcid.org/','') || ''`.  The `replace`
removes the first occurrence of the URL prefix; OpenAlex `orcid` fields
carry the canonical `https://orcid.org/…` form, so this is modelled as a
prefix strip. -/
def stripOrcid (s : String) : String :=
  if isPrefixL "https://orcid.org/".data s.data then
    String.mk (s.data.drop "https://orcid.org/".data.length)
  else s

/-- Conversion of an OpenAlex work to a `RawPublication`
(`part_003` lines 324–334 and `part_004` lines 288–298, identical). -/
def oaToRawPublication (w : OAWork) : RawPublication where
  title := w.title
  year := jsIntOrNull w.publication_year
  venue := w.host_venue
  url := if w.landing_page_url ≠ "" then w.landing_page_url
         else if w.doi ≠ "" then "https://doi.org/" ++ w.doi else ""
  doi := w.doi
  authors := (w.authorships.map (fun a => a.display_name)).filter (· ≠ "")
  type := jsLowerStr (if w.type = "" then "other" else w.type)
  origin := "OA"
  abstract := ""

/-- Metrics snapshot (`totalPublications`, optional `totalCitations` and
`hIndex`, `lastUpdated` date string). -/
structure Metrics where
  totalPublications : Nat
  totalCitations : Option Int
  hIndex : Option Int
  lastUpdated : String
  deriving DecidableEq, Repr

namespace Part004

/-- Request body of `part_004`'s `/api/authorPublications` (line 223):
`{ name, affiliation?, department?, next?, limit? }`, with `next` reduced
to its `oaCursor` field. -/
structure Body where
  name : String
  affiliation : String
  department : String
  next : Option String
  limit : Option Int
  deriving DecidableEq, Repr

/-- `MAX_PUBS` (line 225): `Math.max(50, Math.min(Number(limit) ||
DEFAULT_LIMIT, 1000))` with `DEFAULT_LIMIT = 300` (`limit` absent or `0`
falls back to the default). -/
def maxPubsOf (limit : Option Int) : Nat :=
  (max 50 (min (match limit with
                | none => (300 : Int)
                | some n => if n = 0 then 300 else n) 1000)).toNat

/-- Candidate score (lines 242–249): `+2` for an exact lowercased
display-name match, `+2` when the non-empty lowercased affiliation hint
occurs in the lowercased institution, `+1` likewise for the department
hint. -/
def candScore (name aff dept : String) (c : OAAuthor) : Int :=
  (if jsLowerStr c.display_name = jsLowerStr name then 2 else 0) +
  (if jsLowerStr aff ≠ "" ∧
      isInfixStr (jsLowerStr aff) (jsLowerStr c.last_known_institution) = true then 2 else 0) +
  (if jsLowerStr dept ≠ "" ∧
      isInfixStr (jsLowerStr dept) (jsLowerStr c.last_known_institution) = true then 1 else 0)

/-- Author resolution (lines 228–252): first maximal-score candidate, else
the first candidate, else none; `none` input models a failed or non-2xx
author-search call (the route then treats the author as unresolved). -/
def resolveAuthor (name aff dept : String) : Option (List OAAuthor) → Option OAAuthor
  | none => none
  | some cands =>
    match firstArgmax (candScore name aff dept) cands with
    | some best => some best
    | none => cands.head?

/-- `nameOk` for one work (lines 283–285): with a resolved ORCID, some
authorship's ORCID must end with it; otherwise some authorship's display
name must pass the route-local `namesSimilar`. -/
def workNameOk (name orcid : String) (w : OAWork) : Bool :=
  if orcid ≠ "" then
    w.authorships.any (fun a => a.orcid ≠ "" && isSuffixL orcid.data a.orcid.data)
  else
    w.authorships.any (fun a => namesSimilar a.display_name name)

/-- The inner `for (const w of batch)` loop (lines 280–299): stop
appending once the soft cap is reached, skip works failing `nameOk`,
append the rest in order. -/
def pushBatch (name orcid : String) (maxPubs : Nat) :
    List OAWork → List RawPublication → List RawPublication
  | [], acc => acc
  | w :: ws, acc =>
    if acc.length ≥ maxPubs then acc
    else if workNameOk name orcid w then
      pushBatch name orcid maxPubs ws (acc ++ [oaToRawPublication w])
    else pushBatch name orcid maxPubs ws acc

/-- One page fetch: `none` models a rejected fetch, a non-2xx response or
a malformed body (each of which ends the paging, keeping what was
accumulated); `some (batch, nextCursor)` a parsed page, with `nextCursor`
the raw `wj.meta.next_cursor` string (`""` for absent). -/
def FetchPage := String → Option (List OAWork × String)

/-- The works pagination loop (lines 267–306).  `clock` supplies the
successive `timeLeft()` readings at the loop guard (wall-clock time made
explicit); the result is the final value of the `cursor` variable, the
accumulated raw publications, and the trace of cursors actually fetched.
The loop stops when the reading drops to `1000` ms or below, when the
cursor is falsy, when the soft cap is reached, when a fetch fails, when a
page has no next cursor, and on a short page ("natural end"). -/
def worksLoop (fetch : String → Option (List OAWork × String)) (name orcid : String)
    (maxPubs : Nat) :
    List Nat → Option String → List RawPublication →
    Option String × List RawPublication × List String
  | _, none, acc => (none, acc, [])
  | [], some c, acc => (some c, acc, [])
  | t :: ts, some c, acc =>
    if t ≤ 1000 then (some c, acc, [])
    else if c = "" then (some c, acc, [])
    else if acc.length ≥ maxPubs then (some c, acc, [])
    else
      match fetch c with
      | none => (some c, acc, [c])
      | some (batch, nextStr) =>
        let acc2 := pushBatch name orcid maxPubs batch acc
        match jsStrOrNone nextStr with
        | none => (none, acc2, [c])
        | some c2 =>
          if batch.length < 100 then (some c2, acc2, [c])
          else if acc2.length ≥ maxPubs then (some c2, acc2, [c])
          else
            let r := worksLoop fetch name orcid maxPubs ts (some c2) acc2
            (r.1, r.2.1, c :: r.2.2)

/-- Initial cursor (line 264): `(next && next.oaCursor) ? next.oaCursor :
'*'`. -/
def initialCursor : Option String → String
  | some s => if s ≠ "" then s else "*"
  | none => "*"

/-- Continuation token (lines 348–351): emitted only when the final cursor
is truthy and, at the `timeLeft()` reading `tTok` taken there, either less
than `900` ms remain or the deduplicated count has reached the cap. -/
def continuationToken (finalCursor : Option String) (tTok : Nat)
    (pubCount maxPubs : Nat) : Option String :=
  match finalCursor with
  | some c => if c ≠ "" ∧ (tTok < 900 ∨ pubCount ≥ maxPubs) then some c else none
  | none => none

/-- Responses of the route: `400 {error:'Missing name'}`; the early
`ok:true` return with a null author (line 258, also produced by the outer
catch at lines 366–369); and the main `ok:true` payload. -/
inductive Resp where
  | badRequest
  | noAuthor
  | ok (author : OAAuthor) (orcid : String) (publications : List RawPublication)
      (metrics : Metrics) (next : Option String)
  deriving DecidableEq, Repr

/-- Outgoing calls of the route, in order. -/
inductive Ev where
  | authorsSearch
  | worksFetch (cursor : String)
  | save (pubs : List RawPublication)
  deriving DecidableEq, Repr

/-- The `/api/authorPublications` handler of `src/unnamed/part_004`
lines 196–370.  Network effects are passed in as oracles (`authorSearch`
= the parsed author-search result, `none` when that call failed; `fetch`
= works pages); `clock` and `tTok` are the successive `timeLeft()`
readings at the loop guard and at the token check; `today` models
`new Date().toISOString().slice(0,10)`.  The persistence call always
happens and its failure is swallowed, so it appears only as a `save`
event.  Returns the response and the trace of outgoing calls. -/
def handler (b : Body) (authorSearch : Option (List OAAuthor))
    (fetch : String → Option (List OAWork × String))
    (clock : List Nat) (tTok : Nat) (today : String) : Resp × List Ev :=
  if b.name = "" then (.badRequest, [])
  else
    match resolveAuthor b.name b.affiliation b.department authorSearch with
    | none => (.noAuthor, [.authorsSearch])
    | some a =>
      let maxPubs := maxPubsOf b.limit
      let orcid := stripOrcid a.orcid
      let r := worksLoop fetch b.name orcid maxPubs clock (some (initialCursor b.next)) []
      let pubs := dedupeByKey r.2.1
      let m : Metrics := ⟨pubs.length, none, none, today⟩
      (.ok a orcid pubs m (continuationToken r.1 tTok pubs.length maxPubs),
       .authorsSearch :: (r.2.2.map Ev.worksFetch) ++ [.save pubs])

end Part004

namespace Part003

/-- Request body of `part_003`'s `/api/authorPublications` (line 187). -/
structure Body where
  name : String
  affiliation : String
  department : String
  deriving DecidableEq, Repr

/-- A Semantic Scholar author candidate, restricted to the fields the route
reads. -/
structure SSAuthor where
  authorId : String
  name : String
  aliases : List String
  affiliations : List String
  deriving DecidableEq, Repr

/-- Candidate score (lines 199–206): `fields` is the lowercased join of
name, aliases and affiliations; `+2` for an exact lowercased name match,
`+3` when the non-empty lowercased affiliation hint occurs in `fields`,
`+1` likewise for the department hint. -/
def candScore (qname aff dept : String) (c : SSAuthor) : Int :=
  (if jsLowerStr c.name = jsLowerStr qname then 2 else 0) +
  (if jsLowerStr aff ≠ "" ∧
      isInfixStr (jsLowerStr aff)
        (jsLowerStr (String.intercalate " " (c.name :: (c.aliases ++ c.affiliations)))) = true
   then 3 else 0) +
  (if jsLowerStr dept ≠ "" ∧
      isInfixStr (jsLowerStr dept)
        (jsLowerStr (String.intercalate " " (c.name :: (c.aliases ++ c.affiliations)))) = true
   then 1 else 0)

/-- Author resolution (lines 191–209): the stable descending sort by score
followed by `[0]?.c || candidates[0] || null` picks the first candidate of
maximal score; `none` input models a failed or non-2xx author-search call
(caught, leaving `best = null`). -/
def resolveAuthor (qname aff dept : String) : Option (List SSAuthor) → Option SSAuthor
  | none => none
  | some cands =>
    match firstArgmax (candScore qname aff dept) cands with
    | some best => some best
    | none => cands.head?

/-- A Semantic Scholar paper, restricted to the fields the route reads.
`authors` holds the author names (`""` for a missing name),
`externalIdsDOI` models `p.externalIds?.DOI`. -/
structure SSPaper where
  title : String
  year : Option Int
  venue : String
  url : String
  doi : String
  externalIdsDOI : String
  authors : List String
  publicationTypes : List String
  abstract : String
  deriving DecidableEq, Repr

/-- Outcome of one Semantic Scholar papers-page fetch: a rejected fetch or
malformed body throws (uncaught inside this loop), a non-2xx response
breaks the loop, a parsed page yields its items. -/
inductive PageOutcome where
  | thrown
  | notOk
  | ok (items : List SSPaper)
  deriving DecidableEq, Repr

/-- The Semantic Scholar paging loop (lines 216–224) over offsets
`0,100,…,400`: a non-OK response breaks; a short page ends the loop; a
`thrown` outcome aborts with `none` (the exception propagates to the
route's outer catch).  Also returns the offsets actually fetched. -/
def ssLoopGo (pf : Nat → PageOutcome) :
    List Nat → List SSPaper → Option (List SSPaper) × List Nat
  | [], acc => (some acc, [])
  | o :: os, acc =>
    match pf o with
    | .thrown => (none, [o])
    | .notOk => (some acc, [o])
    | .ok items =>
      if items.length < 100 then (some (acc ++ items), [o])
      else
        let r := ssLoopGo pf os (acc ++ items)
        (r.1, o :: r.2)

/-- The offsets of `for (let offset = 0; offset < 500; offset += 100)`. -/
def ssOffsets : List Nat := [0, 100, 200, 300, 400]

/-- Conversion of a Semantic Scholar paper to a `RawPublication`
(lines 228–238). -/
def ssToRawPublication (p : SSPaper) : RawPublication where
  title := p.title
  year := jsIntOrNull p.year
  venue := p.venue
  url := p.url
  doi := if p.doi ≠ "" then p.doi else p.externalIdsDOI
  authors := p.authors.filter (· ≠ "")
  type := if p.publicationTypes.headD "" = "" then "other"
          else jsLowerStr (p.publicationTypes.headD "")
  origin := "SS"
  abstract := p.abstract

/-- The Semantic Scholar pipeline (lines 226–239): keep papers with some
named author similar to the query name, convert, drop empty titles. -/
def ssPublications (qname : String) (papers : List SSPaper) : List RawPublication :=
  ((papers.filter (fun p => p.authors.any (fun a => a ≠ "" && namesSimilar a qname))).map
    ssToRawPublication).filter (fun p => p.title ≠ "")

/-- A Crossref work author. -/
structure CRAuthor where
  given : String
  family : String
  affiliationNames : List String
  deriving DecidableEq, Repr

/-- A Crossref work item, restricted to the fields the route reads
(`title` and `container-title` are arrays on the wire). -/
structure CRItem where
  title : List String
  issuedYear : Option Int
  containerTitle : List String
  URL : String
  DOI : String
  author : List CRAuthor
  type : String
  deriving DecidableEq, Repr

/-- Outcome of the Crossref call; `thrown` and `notOk` both leave
`publicationsCR = []` (the whole block sits in a `try`). -/
inductive CROutcome where
  | thrown
  | notOk
  | ok (items : List CRItem)
  deriving DecidableEq, Repr

/-- The Crossref item filter (lines 254–263): some author name must be
similar to the query name; when a hint is present, some author affiliation
must satisfy `includesAff`. -/
def crKeep (qname aff dept : String) (x : CRItem) : Bool :=
  (x.author.any (fun a => namesSimilar (jsTrimStr (a.given ++ " " ++ a.family)) qname)) &&
  (if aff = "" ∧ dept = "" then true
   else x.author.any (fun a => a.affiliationNames.any (fun af => includesAff af aff dept)))

/-- Conversion of a Crossref item to a `RawPublication` (lines 264–274). -/
def crToRawPublication (x : CRItem) : RawPublication where
  title := x.title.headD ""
  year := jsIntOrNull x.issuedYear
  venue := x.containerTitle.headD ""
  url := if x.URL ≠ "" then x.URL else if x.DOI ≠ "" then "https://doi.org/" ++ x.DOI else ""
  doi := x.DOI
  authors := (x.author.map (fun a => jsTrimStr (a.given ++ " " ++ a.family))).filter (· ≠ "")
  type := jsLowerStr (if x.type = "" then "other" else x.type)
  origin := "CR"
  abstract := ""

/-- The Crossref pipeline (lines 242–277). -/
def crPublications (qname aff dept : String) : CROutcome → List RawPublication
  | .thrown => []
  | .notOk => []
  | .ok items =>
    ((items.filter (crKeep qname aff dept)).map crToRawPublication).filter
      (fun p => p.title ≠ "")

/-- OpenAlex candidate score in `part_003` (lines 292–299): `+3` for an
exact lowercased display-name match, `+2` for the affiliation hint in the
institution, `+1` for the department hint. -/
def oaCandScore (qname aff dept : String) (c : OAAuthor) : Int :=
  (if jsLowerStr c.display_name = jsLowerStr qname then 3 else 0) +
  (if jsLowerStr aff ≠ "" ∧
      isInfixStr (jsLowerStr aff) (jsLowerStr c.last_known_institution) = true then 2 else 0) +
  (if jsLowerStr dept ≠ "" ∧
      isInfixStr (jsLowerStr dept) (jsLowerStr c.last_known_institution) = true then 1 else 0)

/-- OpenAlex target author (lines 288–301): only when the candidate list
is non-empty, the first maximal-score candidate (else the first). -/
def oaTarget (qname aff dept : String) : Option (List OAAuthor) → Option OAAuthor
  | none => none
  | some [] => none
  | some cands =>
    match firstArgmax (oaCandScore qname aff dept) cands with
    | some b => some b
    | none => cands.head?

/-- The OpenAlex work filter of `part_003` (lines 313–323): with a
resolved ORCID an ORCID suffix match suffices; otherwise a name-similar
authorship is required, and when a hint is present, the joined institution
names must satisfy `includesAff`. -/
def oaKeep (qname aff dept orcid : String) (w : OAWork) : Bool :=
  if orcid ≠ "" then
    w.authorships.any (fun a => a.orcid ≠ "" && isSuffixL orcid.data a.orcid.data)
  else
    (w.authorships.any (fun a => namesSimilar a.display_name qname)) &&
    (if aff = "" ∧ dept = "" then true
     else includesAff
       (String.intercalate " " (w.authorships.map (fun a => String.intercalate " " a.institutions)))
       aff dept)

/-- The OpenAlex works pipeline of `part_003` (lines 303–336); `none`
input models a failed or non-2xx works call. -/
def oaPublications (qname aff dept orcid : String) : Option (List OAWork) → List RawPublication
  | none => []
  | some works =>
    ((works.filter (oaKeep qname aff dept orcid)).map oaToRawPublication).filter
      (fun p => p.title ≠ "")

/-- The Semantic Scholar author-detail metrics (lines 350–367), simplified
to its fields: finite counts overwrite the `null` defaults, a non-empty
`updated` string overwrites the run date. -/
structure SSDetail where
  citationCount : Option Int
  hIndex : Option Int
  updated : String
  deriving DecidableEq, Repr

/-- Apply a fetched author detail to the base metrics (lines 357–366);
`none` models a failed, non-2xx or malformed detail call (caught). -/
def applyDetail (m : Metrics) : Option SSDetail → Metrics
  | none => m
  | some d =>
    { m with
      totalCitations := match d.citationCount with
                        | some n => some n
                        | none => m.totalCitations
      hIndex := match d.hIndex with
                | some n => some n
                | none => m.hIndex
      lastUpdated := if d.updated ≠ "" then d.updated else m.lastUpdated }

/-- Responses of the route: `400 {error:'Missing name'}`, the outer-catch
`500 {error:'Unexpected error'}`, and the `ok:true` payload (author id and
name when resolved). -/
inductive Resp where
  | badRequest
  | serverError
  | ok (author : Option (String × String)) (publications : List RawPublication)
      (metrics : Metrics)
  deriving DecidableEq, Repr

/-- Outgoing calls of the route, in order. -/
inductive Ev where
  | ssSearch
  | ssPapers (offset : Nat)
  | crWorks
  | oaAuthors
  | oaWorks
  | ssDetail
  | save (pubs : List RawPublication)
  deriving DecidableEq, Repr

/-- The `/api/authorPublications` handler of `src/unnamed/part_003`
lines 185–406.  Network effects are passed in as oracles.  The Semantic
Scholar author search, the Crossref block, the OpenAlex block, the metrics
detail fetch and the persistence call each sit in their own `try`/`catch`,
but the Semantic Scholar paging loop does not: a `thrown` page outcome
propagates to the outer catch, which answers
`500 {error:'Unexpected error'}` before Crossref or OpenAlex run.
Returns the response and the trace of outgoing calls (persistence appears
as a `save` event; its failure is swallowed). -/
def handler (b : Body) (ssSearch : Option (List SSAuthor)) (ssPage : Nat → PageOutcome)
    (cr : CROutcome) (oaAuth : Option (List OAAuthor)) (oaWorks : Option (List OAWork))
    (det : Option SSDetail) (today : String) : Resp × List Ev :=
  if b.name = "" then (.badRequest, [])
  else
    let best := resolveAuthor b.name b.affiliation b.department ssSearch
    let detAttempt : Bool := match best with
                             | some bst => bst.authorId ≠ ""
                             | none => false
    let ssRun : Option (List SSPaper) × List Nat :=
      if detAttempt then ssLoopGo ssPage ssOffsets [] else (some [], [])
    match ssRun.1 with
    | none => (.serverError, .ssSearch :: ssRun.2.map Ev.ssPapers)
    | some papers =>
      let pubsSS := ssPublications b.name papers
      let pubsCR := crPublications b.name b.affiliation b.department cr
      let target := oaTarget b.name b.affiliation b.department oaAuth
      let targetOrcid := match target with
                         | some t => stripOrcid t.orcid
                         | none => ""
      let oaAttempt : Bool := match target with
                              | some t => t.id ≠ ""
                              | none => false
      let pubsOA := if oaAttempt then
          oaPublications b.name b.affiliation b.department targetOrcid oaWorks
        else []
      let publications := mergeDedupe (pubsSS ++ pubsCR ++ pubsOA)
      let metrics := applyDetail ⟨publications.length, none, none, today⟩
        (if detAttempt then det else none)
      (.ok (match best with
            | some bst => some (bst.authorId, bst.name)
            | none => none) publications metrics,
       .ssSearch :: ssRun.2.map Ev.ssPapers
         ++ [Ev.crWorks, Ev.oaAuthors]
         ++ (if oaAttempt then [Ev.oaWorks] else [])
         ++ (if detAttempt then [Ev.ssDetail] else [])
         ++ [Ev.save publications])

end Part003

/-!
## Helper facts for the claim theorems
-/

theorem string_append_left_cancel {s t u : String} (h : s ++ t = s ++ u) : t = u := by
  have hd : s.data ++ t.data = s.data ++ u.data := by
    have := congrArg String.data h
    simpa [String.data_append] using this
  cases t
  cases u
  exact congrArg String.mk (List.append_cancel_left hd)

theorem part003_handler_not_badRequest (b : Part003.Body)
    (ssSearch : Option (List Part003.SSAuthor)) (ssPage : Nat → Part003.PageOutcome)
    (cr : Part003.CROutcome) (oaAuth : Option (List OAAuthor)) (oaWorks : Option (List OAWork))
    (det : Option Part003.SSDetail) (today : String) (h : b.name ≠ "") :
    (Part003.handler b ssSearch ssPage cr oaAuth oaWorks det today).1 ≠ .badRequest := by
  unfold Part003.handler
  rw [if_neg h]
  dsimp only
  split
  · intro hcontra
    exact Part003.Resp.noConfusion hcontra
  · intro hcontra
    exact Part003.Resp.noConfusion hcontra

theorem part004_handler_not_badRequest (b : Part004.Body)
    (as : Option (List OAAuthor)) (fetch : String → Option (List OAWork × String))
    (clock : List Nat) (tTok : Nat) (today : String) (h : b.name ≠ "") :
    (Part004.handler b as fetch clock tTok today).1 ≠ .badRequest := by
  unfold Part004.handler
  rw [if_neg h]
  dsimp only
  split
  · intro hcontra
    exact Part004.Resp.noConfusion hcontra
  · intro hcontra
    exact Part004.Resp.noConfusion hcontra

/-!
## Claim theorems
-/

/-- C5 counterexample: the claim's `namesSimilar` contract fails on the
effective `namesSimilar` of `src/research-explorer/server.js` (cited by
the claim).  On "Ankit Khandare" vs "Anand Khandare" the last tokens match
and the first tokens merely share their first letter: the server.js
variant answers `true`, while the claimed condition (first tokens equal,
or one a single-letter prefix of the other) is false — as is the
`part_003` variant. -/
theorem c5_counterexample :
    ServerJs.namesSimilar "Ankit Khandare" "Anand Khandare" = true ∧
    ¬ NamesSimilarSpec "Ankit Khandare" "Anand Khandare" ∧
    Part003.namesSimilar "Ankit Khandare" "Anand Khandare" = false := by decide

/-- C5 (amended): for the `namesSimilar` of `part_003` (identical at the
top level of `part_004`), the function returns `true` exactly under the
claimed condition — equality after lowercasing and whitespace collapsing,
containment either way, or equal last tokens with equal first tokens or a
single-letter-initial prefix — and `false` on empty input; the claim's
three anchor evaluations hold. -/
theorem c5_theorem :
    (∀ a b : String, Part003.namesSimilar a b = true ↔ NamesSimilarSpec a b) ∧
    Part003.namesSimilar "A. Khandare" "Anand Khandare" = true ∧
    Part003.namesSimilar "Anand Khandare" "Anand Patel" = false ∧
    Part003.namesSimilar "" "Anand" = false :=
  ⟨part003_namesSimilar_iff_spec, by decide, by decide, by decide⟩

/-- C6 counterexample: the claim's `affiliationMatches` contract fails on
the effective top-level `includesAff` of `src/research-explorer/server.js`
(cited by the claim): with both hints absent it returns `false` for every
text (its `some` over the empty filtered term list), while the claimed
AND-of-non-empty-hints condition is vacuously true — as the `part_003`
variant correctly answers. -/
theorem c6_counterexample :
    ServerJs.includesAff "ai department" ["", ""] = false ∧
    IncludesAffSpec "ai department" "" "" ∧
    Part003.includesAff "ai department" "" "" = true := by decide

/-- C6 (amended): for the `includesAff` of `part_003` (identical at the
top level of `part_004`), the matcher returns `true` exactly when every
non-empty hint occurs case-insensitively in the text, hints ANDed, absent
hints vacuously satisfied; in particular with both hints absent it accepts
the empty text. -/
theorem c6_theorem :
    (∀ text aff dept : String,
      Part003.includesAff text aff dept = true ↔ IncludesAffSpec text aff dept) ∧
    Part003.includesAff "" "" "" = true :=
  ⟨part003_includesAff_iff_spec, by decide⟩

/-- C7: in both `/api/authorPublications` handlers, a missing/empty `name`
yields the `400` input error with no provider and no persistence call
(empty trace), and with a non-empty `name` the run never answers the input
error, whatever the providers do. -/
theorem c7_theorem :
    (∀ (b : Part003.Body) (ssSearch : Option (List Part003.SSAuthor))
       (ssPage : Nat → Part003.PageOutcome) (cr : Part003.CROutcome)
       (oaAuth : Option (List OAAuthor)) (oaWorks : Option (List OAWork))
       (det : Option Part003.SSDetail) (today : String),
       (b.name = "" →
         Part003.handler b ssSearch ssPage cr oaAuth oaWorks det today = (.badRequest, [])) ∧
       (b.name ≠ "" →
         (Part003.handler b ssSearch ssPage cr oaAuth oaWorks det today).1 ≠ .badRequest)) ∧
    (∀ (b : Part004.Body) (as : Option (List OAAuthor))
       (fetch : String → Option (List OAWork × String)) (clock : List Nat)
       (tTok : Nat) (today : String),
       (b.name = "" → Part004.handler b as fetch clock tTok today = (.badRequest, [])) ∧
       (b.name ≠ "" → (Part004.handler b as fetch clock tTok today).1 ≠ .badRequest)) := by
  constructor
  · intro b ssSearch ssPage cr oaAuth oaWorks det today
    constructor
    · intro h
      unfold Part003.handler
      rw [if_pos h]
    · intro h
      exact part003_handler_not_badRequest b ssSearch ssPage cr oaAuth oaWorks det today h
  · intro b as fetch clock tTok today
    constructor
    · intro h
      unfold Part004.handler
      rw [if_pos h]
    · intro h
      exact part004_handler_not_badRequest b as fetch clock tTok today h

/-- C7 witness: the theorem applied to a concrete empty-name request and a
concrete non-empty-name request against failing providers. -/
theorem c7_theorem_witness :
    Part003.handler ⟨"", "Thakur College", "AI"⟩ none (fun _ => .notOk) .notOk none none
      none "2026-10-11" = (.badRequest, []) ∧
    Part004.handler ⟨"", "", "", none, none⟩ none (fun _ => none) [5000] 4000
      "2026-10-11" = (.badRequest, []) ∧
    (Part003.handler ⟨"Anand Khandare", "", ""⟩ none (fun _ => .notOk) .notOk none none
      none "2026-10-11").1 ≠ .badRequest ∧
    (Part004.handler ⟨"Anand Khandare", "", "", none, none⟩ none (fun _ => none) [5000] 4000
      "2026-10-11").1 ≠ .badRequest := by
  refine ⟨?_, ?_, ?_, ?_⟩
  · exact ( c7_theorem.1 ⟨"", "Thakur College", "AI"⟩ none (fun _ => .notOk) .notOk none none
      none "2026-10-11").1 rfl
  · exact ( c7_theorem.2 ⟨"", "", "", none, none⟩ none (fun _ => none) [5000] 4000
      "2026-10-11").1 rfl
  · exact ( c7_theorem.1 ⟨"Anand Khandare", "", ""⟩ none (fun _ => .notOk) .notOk none none
      none "2026-10-11").2 (by decide)
  · exact ( c7_theorem.2 ⟨"Anand Khandare", "", "", none, none⟩ none (fun _ => none) [5000]
      4000 "2026-10-11").2 (by decide)

/-- C8 counterexample: with the natural key of the claim (DOI first), the
`part_003` merge output is not key-unique: two records with the same DOI
but different URLs both survive, and they share the DOI-first natural key
(computed here by `Part004.dedupKey`, the code's implementation of that
key). -/
theorem c8_counterexample :
    (mergeDedupe
        [⟨"K Study", none, "", "https://k1.example/a", "10.4/K", [], "other", "SS", ""⟩,
         ⟨"K Study mirror", none, "", "https://k2.example/b", "10.4/K", [], "other", "OA", ""⟩]
      = [⟨"K Study", none, "", "https://k1.example/a", "10.4/K", [], "other", "SS", ""⟩,
         ⟨"K Study mirror", none, "", "https://k2.example/b", "10.4/K", [], "other", "OA", ""⟩]) ∧
    Part004.dedupKey ⟨"K Study", none, "", "https://k1.example/a", "10.4/K", [], "other", "SS", ""⟩
      = Part004.dedupKey
        ⟨"K Study mirror", none, "", "https://k2.example/b", "10.4/K", [], "other", "OA", ""⟩ := by
  decide

/-- C8 (amended): each merge's output is key-unique for its own key
scheme: the `byKey` dedupe of `part_004` never outputs two records with
the same `doi → url → title+year` key, and the `part_003` merge never
outputs two records with the same `url → title+year` key.  (Uniqueness of
the DOI-first natural key fails for the `part_003` merge, which ignores
the DOI — see the counterexample.) -/
theorem c8_theorem : ∀ l : List RawPublication,
    ((dedupeByKey l).map Part004.dedupKey).Nodup ∧
    ((mergeDedupe l).map Part003.dedupKey).Nodup :=
  fun l => ⟨keepFirstBy_keys_nodup _ l [], keepFirstBy_keys_nodup _ l []⟩

/-- C9: both merge implementations are idempotent: re-running the dedupe
on its own output returns the output unchanged (hence equal as a set),
and as pure functions they are deterministic. -/
theorem c9_theorem : ∀ l : List RawPublication,
    dedupeByKey (dedupeByKey l) = dedupeByKey l ∧
    mergeDedupe (mergeDedupe l) = mergeDedupe l :=
  fun l => ⟨keepFirstBy_idem _ l, keepFirstBy_idem _ l⟩

/-- C10: both cited `namesSimilar` variants — the top-level one of
`part_003` and the route-local one of `part_004` — are symmetric in their
two arguments. -/
theorem c10_theorem : ∀ a b : String,
    Part003.namesSimilar a b = Part003.namesSimilar b a ∧
    Part004.namesSimilar a b = Part004.namesSimilar b a :=
  fun a b => ⟨part003_namesSimilar_symm a b, part004_namesSimilar_symm a b⟩

/-- C1 counterexample: in the `part_003` merge (cited by the claim), two
records with the same non-empty DOI but different URLs do NOT collapse —
its key is `url → title+year` and never consults the DOI — so the claim
fails there as stated. -/
theorem c1_counterexample :
    (jsLowerStr "10.1/ABC" = jsLowerStr "10.1/abc") ∧
    (mergeDedupe
        [⟨"Graph Models", some 2020, "", "https://a.example/p1", "10.1/ABC", [], "other",
          "SS", ""⟩,
         ⟨"Graph Models preprint", none, "", "https://b.example/p1", "10.1/abc", [], "other",
          "CR", ""⟩]).length = 2 := by
  decide

/-- C1 (amended): for the `byKey` dedupe of `part_004`, two input records
with the same non-empty DOI (case-insensitively) share one dedup key and
exactly one canonical record carries that key in the output — regardless
of their URLs, titles or years — while two input records with
case-insensitively different non-empty DOIs are represented by two
distinct canonical records. -/
theorem c1_theorem : ∀ (l : List RawPublication) (p q : RawPublication),
    p ∈ l → q ∈ l → p.doi ≠ "" → q.doi ≠ "" →
    (jsLowerStr p.doi = jsLowerStr q.doi →
      Part004.dedupKey p = Part004.dedupKey q ∧
      (dedupeByKey l).countP (fun r => Part004.dedupKey r = Part004.dedupKey p) = 1) ∧
    (jsLowerStr p.doi ≠ jsLowerStr q.doi →
      ∃ p' q', p' ∈ dedupeByKey l ∧ q' ∈ dedupeByKey l ∧ p' ≠ q' ∧
        Part004.dedupKey p' = Part004.dedupKey p ∧
        Part004.dedupKey q' = Part004.dedupKey q) := by
  intro l p q hp hq hpd hqd
  have hkeyp : Part004.dedupKey p = "doi:" ++ jsLowerStr p.doi := by
    unfold Part004.dedupKey
    rw [if_pos hpd]
  have hkeyq : Part004.dedupKey q = "doi:" ++ jsLowerStr q.doi := by
    unfold Part004.dedupKey
    rw [if_pos hqd]
  constructor
  · intro heq
    refine ⟨?_, keepFirstBy_countP_eq_one hp [] (by simp)⟩
    rw [hkeyp, hkeyq, heq]
  · intro hne
    rcases keepFirstBy_exists_key l [] hp (by simp) with ⟨p', hp', hkp⟩
    rcases keepFirstBy_exists_key l [] hq (by simp) with ⟨q', hq', hkq⟩
    refine ⟨p', q', hp', hq', ?_, hkp, hkq⟩
    intro hcontra
    apply hne
    have hkk : Part004.dedupKey p = Part004.dedupKey q := by
      rw [← hkp, hcontra, hkq]
    rw [hkeyp, hkeyq] at hkk
    exact string_append_left_cancel hkk

/-- C1 witness: the amended theorem applied to a concrete three-record
list — two spellings of the same DOI collapse onto one canonical record;
a third record with a different DOI stays distinct. -/
theorem c1_theorem_witness :
    (Part004.dedupKey
        ⟨"Graph Models", some 2020, "", "https://a.example/p1", "10.1/ABC", [], "other",
          "SS", ""⟩
      = Part004.dedupKey
        ⟨"Graph Models preprint", none, "", "https://b.example/p1", "10.1/abc", [], "other",
          "CR", ""⟩ ∧
      (dedupeByKey
        [⟨"Graph Models", some 2020, "", "https://a.example/p1", "10.1/ABC", [], "other",
          "SS", ""⟩,
         ⟨"Graph Models preprint", none, "", "https://b.example/p1", "10.1/abc", [], "other",
          "CR", ""⟩,
         ⟨"Other Work", none, "", "", "10.1/xyz", [], "other", "OA", ""⟩]).countP
        (fun r => Part004.dedupKey r = Part004.dedupKey
          ⟨"Graph Models", some 2020, "", "https://a.example/p1", "10.1/ABC", [], "other",
            "SS", ""⟩) = 1) ∧
    (∃ p' q',
      p' ∈ dedupeByKey
        [⟨"Graph Models", some 2020, "", "https://a.example/p1", "10.1/ABC", [], "other",
          "SS", ""⟩,
         ⟨"Graph Models preprint", none, "", "https://b.example/p1", "10.1/abc", [], "other",
          "CR", ""⟩,
         ⟨"Other Work", none, "", "", "10.1/xyz", [], "other", "OA", ""⟩] ∧
      q' ∈ dedupeByKey
        [⟨"Graph Models", some 2020, "", "https://a.example/p1", "10.1/ABC", [], "other",
          "SS", ""⟩,
         ⟨"Graph Models preprint", none, "", "https://b.example/p1", "10.1/abc", [], "other",
          "CR", ""⟩,
         ⟨"Other Work", none, "", "", "10.1/xyz", [], "other", "OA", ""⟩] ∧
      p' ≠ q' ∧
      Part004.dedupKey p' = Part004.dedupKey
        ⟨"Graph Models", some 2020, "", "https://a.example/p1", "10.1/ABC", [], "other",
          "SS", ""⟩ ∧
      Part004.dedupKey q' = Part004.dedupKey
        ⟨"Other Work", none, "", "", "10.1/xyz", [], "other", "OA", ""⟩) := by
  refine ⟨?_, ?_⟩
  · exact ( c1_theorem
      [⟨"Graph Models", some 2020, "", "https://a.example/p1", "10.1/ABC", [], "other",
        "SS", ""⟩,
       ⟨"Graph Models preprint", none, "", "https://b.example/p1", "10.1/abc", [], "other",
        "CR", ""⟩,
       ⟨"Other Work", none, "", "", "10.1/xyz", [], "other", "OA", ""⟩]
      ⟨"Graph Models", some 2020, "", "https://a.example/p1", "10.1/ABC", [], "other",
        "SS", ""⟩
      ⟨"Graph Models preprint", none, "", "https://b.example/p1", "10.1/abc", [], "other",
        "CR", ""⟩
      (by decide) (by decide) (by decide) (by decide)).1 (by decide)
  · exact ( c1_theorem
      [⟨"Graph Models", some 2020, "", "https://a.example/p1", "10.1/ABC", [], "other",
        "SS", ""⟩,
       ⟨"Graph Models preprint", none, "", "https://b.example/p1", "10.1/abc", [], "other",
        "CR", ""⟩,
       ⟨"Other Work", none, "", "", "10.1/xyz", [], "other", "OA", ""⟩]
      ⟨"Graph Models", some 2020, "", "https://a.example/p1", "10.1/ABC", [], "other",
        "SS", ""⟩
      ⟨"Other Work", none, "", "", "10.1/xyz", [], "other", "OA", ""⟩
      (by decide) (by decide) (by decide) (by decide)).2 (by decide)

/-- The dedup key as worded by the spec: `doi:<lowercased doi>` if the DOI
is present and non-empty; else `url:<lowercased url>` if the URL is
present; else `ty:<lowercased title>::<year or empty>`. -/
def specDedupKey (p : RawPublication) : String :=
  if p.doi ≠ "" then "doi:" ++ jsLowerStr p.doi
  else if p.url ≠ "" then "url:" ++ jsLowerStr p.url
  else "ty:" ++ jsLowerStr p.title ++ "::" ++ yearStr p.year

/-- C2 counterexample: in the `part_003` merge (cited by the claim), keys
are not computed DOI-first: two records with different non-empty DOIs but
the same URL have different claimed keys, yet the merge collapses them to
the first record (it keys by URL). -/
theorem c2_counterexample :
    Part004.dedupKey
        ⟨"Paper One", none, "", "https://same.example/x", "10.2/AAA", [], "other", "SS", ""⟩
      ≠ Part004.dedupKey
        ⟨"Paper Two", none, "", "https://same.example/x", "10.2/BBB", [], "other", "CR", ""⟩ ∧
    mergeDedupe
        [⟨"Paper One", none, "", "https://same.example/x", "10.2/AAA", [], "other", "SS", ""⟩,
         ⟨"Paper Two", none, "", "https://same.example/x", "10.2/BBB", [], "other", "CR", ""⟩]
      = [⟨"Paper One", none, "", "https://same.example/x", "10.2/AAA", [], "other", "SS", ""⟩] := by
  decide

/-- C2 (amended): the `byKey` dedupe of `part_004` computes exactly the
claimed key priority (`specDedupKey`, written from the spec's words), and
its output is precisely the spec's first-wins merge: the keys in
first-seen order, each mapped to the first input record carrying it. -/
theorem c2_theorem :
    (∀ p : RawPublication, Part004.dedupKey p = specDedupKey p) ∧
    (∀ l : List RawPublication, dedupeByKey l = specFirstWinsMerge specDedupKey l) := by
  have hkey : specDedupKey = Part004.dedupKey := funext (fun p => rfl)
  constructor
  · intro p
    rw [hkey]
  · intro l
    rw [hkey]
    exact keepFirstBy_eq_specFirstWinsMerge Part004.dedupKey l

/-- C3: evaluation of the `part_003` handler at the failing input.  The
query is well-formed and the Semantic Scholar author search succeeds, but
the first papers-page fetch rejects (`thrown`); because the paging loop
has no inner `try`/`catch`, the exception reaches the outer catch and the
route answers `500 {error:'Unexpected error'}` without ever calling
Crossref or OpenAlex — although the Crossref pipeline, given its (would-be)
successful response, contributes a publication.  This contradicts the
claim (and the spec's §7) that no single provider failure may prevent the
other providers' contributions from being merged and returned. -/
theorem c3_theorem :
    Part003.handler ⟨"anand khandare", "", ""⟩
      (some [⟨"A1", "anand khandare", [], []⟩])
      (fun _ => .thrown)
      (.ok [⟨["Resilient Merging"], some 2021, ["J Test"], "", "10.3/CR1",
            [⟨"Anand", "Khandare", []⟩], "journal-article"⟩])
      none none none "2026-10-11"
    = (.serverError, [.ssSearch, .ssPapers 0]) ∧
    Part003.crPublications "anand khandare" "" ""
      (.ok [⟨["Resilient Merging"], some 2021, ["J Test"], "", "10.3/CR1",
            [⟨"Anand", "Khandare", []⟩], "journal-article"⟩]) ≠ [] := by
  decide

/-- C4 counterexample: the claim fails on `part_004` as stated.  With a
resolved author and one fetched page reporting next cursor `"cur2"`, the
loop stops at the next guard because only 950 ms remain (the guard stops
at ≤ 1000 ms), yet the token check — taken later, at 920 ms — requires
strictly less than 900 ms, so the response carries `next = none`: the
adapter-reported cursor is dropped even though paging stopped for lack of
budget. -/
theorem c4_counterexample :
    Part004.worksLoop
        (fun c => if c = "*"
          then some (List.replicate 100 ⟨"W", some 2020, "", "", "", [], "article"⟩, "cur2")
          else none)
        "anand khandare" "" 300 [5000, 950] (some "*") []
      = (some "cur2", [], ["*"]) ∧
    Part004.handler ⟨"anand khandare", "", "", none, none⟩
        (some [⟨"A1", "anand khandare", "", ""⟩])
        (fun c => if c = "*"
          then some (List.replicate 100 ⟨"W", some 2020, "", "", "", [], "article"⟩, "cur2")
          else none)
        [5000, 950] 920 "2026-10-11"
      = (.ok ⟨"A1", "anand khandare", "", ""⟩ "" [] ⟨0, none, none, "2026-10-11"⟩ none,
         [.authorsSearch, .worksFetch "*", .save []]) := by
  decide

/-- C4 (amended): in `part_004`, (i) a works-loop step that is allowed to
run (over 1000 ms left, truthy cursor, cap not reached) fetches exactly
the cursor it was given — so a caller-supplied `next.oaCursor` (used
verbatim as the initial cursor, (ii)) resumes paging exactly there; (iii)
the continuation token is emitted iff the final cursor is truthy and
either the token-check reading is under 900 ms or the deduplicated count
has reached `MAX_PUBS`; (iv) consequently a stop whose token-check
reading is at least 900 ms with the deduplicated count under the cap
emits no token even when a cursor is pending; and (v) the handler wires
these pieces together exactly. -/
theorem c4_theorem :
    (∀ (fetch : String → Option (List OAWork × String)) (name orcid : String)
       (maxPubs t : Nat) (ts : List Nat) (c : String) (acc : List RawPublication),
       1000 < t → c ≠ "" → acc.length < maxPubs →
       (Part004.worksLoop fetch name orcid maxPubs (t :: ts) (some c) acc).2.2.head?
         = some c) ∧
    (∀ tok : String, tok ≠ "" → Part004.initialCursor (some tok) = tok) ∧
    (∀ (c : String) (tTok pubCount maxPubs : Nat),
       Part004.continuationToken (some c) tTok pubCount maxPubs = some c ↔
         (c ≠ "" ∧ (tTok < 900 ∨ pubCount ≥ maxPubs))) ∧
    (∀ (c : String) (tTok pubCount maxPubs : Nat),
       900 ≤ tTok → pubCount < maxPubs →
       Part004.continuationToken (some c) tTok pubCount maxPubs = none) ∧
    (∀ (b : Part004.Body) (as : Option (List OAAuthor))
       (fetch : String → Option (List OAWork × String)) (clock : List Nat)
       (tTok : Nat) (today : String) (a : OAAuthor),
       b.name ≠ "" →
       Part004.resolveAuthor b.name b.affiliation b.department as = some a →
       (Part004.handler b as fetch clock tTok today).1 =
         (let r := Part004.worksLoop fetch b.name (stripOrcid a.orcid)
             (Part004.maxPubsOf b.limit) clock (some (Part004.initialCursor b.next)) []
          let pubs := dedupeByKey r.2.1
          .ok a (stripOrcid a.orcid) pubs ⟨pubs.length, none, none, today⟩
            (Part004.continuationToken r.1 tTok pubs.length (Part004.maxPubsOf b.limit)))) := by
  refine ⟨?_, ?_, ?_, ?_, ?_⟩
  · intro fetch name orcid maxPubs t ts c acc ht hc hlen
    simp only [Part004.worksLoop]
    rw [if_neg (by omega), if_neg hc, if_neg (by omega)]
    rcases hf : fetch c with _ | ⟨batch, nextStr⟩
    · simp
    · simp only
      rcases hn : jsStrOrNone nextStr with _ | c2
      · simp
      · simp only
        split
        · simp
        · split
          · simp
          · simp
  · intro tok h
    simp [Part004.initialCursor, h]
  · intro c tTok pubCount maxPubs
    unfold Part004.continuationToken
    dsimp only
    by_cases hcond : c ≠ "" ∧ (tTok < 900 ∨ pubCount ≥ maxPubs)
    · rw [if_pos hcond]
      exact iff_of_true rfl hcond
    · rw [if_neg hcond]
      constructor
      · intro h
        exact absurd h (by simp)
      · intro h
        exact absurd h hcond
  · intro c tTok pubCount maxPubs h1 h2
    unfold Part004.continuationToken
    dsimp only
    rw [if_neg ?hcond]
    case hcond =>
      rintro ⟨-, h | h⟩
      · omega
      · omega
  · intro b as fetch clock tTok today a hname hres
    unfold Part004.handler
    rw [if_neg hname, hres]

/-- C4 witness: the amended theorem applied at concrete inputs — a loop
step resuming at cursor `"tok"`, the initial-cursor equation, the dropped
token at a 950 ms reading, and the handler glue for a resumed request. -/
theorem c4_theorem_witness :
    (Part004.worksLoop (fun _ => none) "n" "" 300 [2000] (some "tok") []).2.2.head?
      = some "tok" ∧
    Part004.initialCursor (some "tok") = "tok" ∧
    Part004.continuationToken (some "tok") 950 0 300 = none ∧
    (Part004.handler ⟨"n", "", "", some "tok", none⟩ (some [⟨"A1", "n", "", ""⟩])
        (fun _ => none) [2000] 950 "2026-10-11").1 =
      (let r := Part004.worksLoop (fun _ => none) "n" (stripOrcid "")
          (Part004.maxPubsOf none) [2000] (some (Part004.initialCursor (some "tok"))) []
       let pubs := dedupeByKey r.2.1
       .ok ⟨"A1", "n", "", ""⟩ (stripOrcid "") pubs ⟨pubs.length, none, none, "2026-10-11"⟩
         (Part004.continuationToken r.1 950 pubs.length (Part004.maxPubsOf none))) := by
  refine ⟨?_, ?_, ?_, ?_⟩
  · exact c4_theorem.1 (fun _ => none) "n" "" 300 2000 [] "tok" []
      (by omega) (by decide) (by decide)
  · exact c4_theorem.2.1 "tok" (by decide)
  · exact c4_theorem.2.2.2.1 "tok" 950 0 300 (by omega) (by omega)
  · exact c4_theorem.2.2.2.2 ⟨"n", "", "", some "tok", none⟩ (some [⟨"A1", "n", "", ""⟩])
      (fun _ => none) [2000] 950 "2026-10-11" ⟨"A1", "n", "", ""⟩ (by decide) (by decide)
